import Mathlib

/-!
Shallow embedding of the MCP23017 device driver
(`custom_components/mcp23017/__init__.py`) and proofs about it.

The driver keeps a 16-bit cache for four registers (IODIR, GPPU, GPIO,
OLAT), each split over bank A (pins 0-7, low byte) and bank B (pins
8-15, high byte).  Transport (I2C) accesses go through `__setitem__` /
`__getitem__`, which catch OSError, log the first failure of an episode,
suppress further failure logs until recovery, and log one recovery
message.  The polling loop reads a bank's GPIO register only when some
entity of that bank has a `push_update` attribute, accumulates changed
bits in an update bitmap and dispatches per-pin notifications.

Python integers are modelled as `Nat` with explicit masking where the
source masks; the transport is modelled by an explicit `BusModel`
(outcome of each read/write), and effects (bus events, log messages,
notifications) are returned as lists.
-/

/-! ### Register map constants (IOCON.BANK = 1 layout), from the module header -/

def IODIRA : Nat := 0x00
def IODIRB : Nat := 0x10
def GPPUA : Nat := 0x06
def GPPUB : Nat := 0x16
def GPIOA : Nat := 0x09
def GPIOB : Nat := 0x19
def OLATA : Nat := 0x0a
def OLATB : Nat := 0x1a

/-- The four register names that the driver caches (`self._cache` keys). -/
inductive Reg where
  | IODIR
  | GPPU
  | gpio
  | OLAT
deriving DecidableEq

/-- `globals()[register + "A"]`: bank-A address of a cached register. -/
def regAddrA : Reg → Nat
  | .IODIR => IODIRA
  | .GPPU => GPPUA
  | .gpio => GPIOA
  | .OLAT => OLATA

/-- `globals()[register + "B"]`: bank-B address of a cached register. -/
def regAddrB : Reg → Nat
  | .IODIR => IODIRB
  | .GPPU => GPPUB
  | .gpio => GPIOB
  | .OLAT => OLATB

/-- `self._cache`: one 16-bit value per cached register. -/
structure Cache where
  iodir : Nat
  gppu : Nat
  gpio : Nat
  olat : Nat
deriving DecidableEq

/-- `self._cache[register]` (read). -/
def Cache.get (c : Cache) : Reg → Nat
  | .IODIR => c.iodir
  | .GPPU => c.gppu
  | .gpio => c.gpio
  | .OLAT => c.olat

/-- `self._cache[register] = v` (write). -/
def Cache.set (c : Cache) : Reg → Nat → Cache
  | .IODIR, v => { c with iodir := v }
  | .GPPU, v => { c with gppu := v }
  | .gpio, v => { c with gpio := v }
  | .OLAT, v => { c with olat := v }

/-- An entity bound to a pin.  `hasPushUpdate` models
`hasattr(entity, "push_update")`, i.e. whether the observer is reactive. -/
structure Entity where
  pin : Nat
  hasPushUpdate : Bool
deriving DecidableEq

/-- Device state: the register cache, the transport fault bookkeeping
(`self._i2c_faulted`, `self._i2c_suppressed_logs`), the 16-slot entity
table (`self._entities`) and the pending-change mask
(`self._update_bitmap`). -/
structure MCP23017 where
  cache : Cache
  i2c_faulted : Bool
  i2c_suppressed_logs : Nat
  entities : List (Option Entity)
  update_bitmap : Nat
deriving DecidableEq

/-- A log record emitted by the transport wrappers: `error` for
`_LOGGER.error("I2C ... failure ...")`, `recovery n` for
`_LOGGER.info("I2C access recovered ... (suppressed n log(s))")`. -/
inductive LogMsg where
  | error
  | recovery (suppressed : Nat)
deriving DecidableEq

/-- A transport transaction attempted on the bus. -/
inductive BusEvent where
  | write (register value : Nat)
  | read (register : Nat)
deriving DecidableEq

/-- Environment model of the I2C bus: what each `read_byte_data` /
`write_byte_data` call would do.  `read a = none` / `write a v = false`
model the call raising OSError. -/
structure BusModel where
  read : Nat → Option Nat
  write : Nat → Nat → Bool

/-- `__setitem__` fault bookkeeping: `ok` is whether
`write_byte_data` succeeded.  On failure the byte is dropped and no
exception reaches the caller; the first failure of an episode logs one
error, later ones only bump the suppressed counter; a success while
faulted logs one recovery message with the suppressed count. -/
def setitem (ok : Bool) (s : MCP23017) : MCP23017 × List LogMsg :=
  if ok then
    if s.i2c_faulted then
      ({ s with i2c_faulted := false, i2c_suppressed_logs := 0 },
       [.recovery s.i2c_suppressed_logs])
    else
      (s, [])
  else
    if s.i2c_faulted then
      ({ s with i2c_suppressed_logs := s.i2c_suppressed_logs + 1 }, [])
    else
      ({ s with i2c_faulted := true, i2c_suppressed_logs := 0 }, [.error])

/-- `__getitem__`: `outcome` is the byte returned by `read_byte_data`
(`none` models OSError, in which case `data = 0` is returned).  Fault
bookkeeping is identical to `setitem`. -/
def getitem (outcome : Option Nat) (s : MCP23017) : Nat × MCP23017 × List LogMsg :=
  match outcome with
  | some data =>
    if s.i2c_faulted then
      (data, { s with i2c_faulted := false, i2c_suppressed_logs := 0 },
       [.recovery s.i2c_suppressed_logs])
    else
      (data, s, [])
  | none =>
    if s.i2c_faulted then
      (0, { s with i2c_suppressed_logs := s.i2c_suppressed_logs + 1 }, [])
    else
      (0, { s with i2c_faulted := true, i2c_suppressed_logs := 0 }, [.error])

/-- `_set_register_value(register, bit, value)`.  Python's
`~(1 << bit) & 0xFFFF` equals `0xFFFF ^^^ ((1 <<< bit) &&& 0xFFFF)` for
every natural `bit` (two's-complement `~x & m` is `m` minus the masked
bits of `x`).  Returns the new state, the transport write attempts and
the log messages. -/
def set_register_value (bus : BusModel) (register : Reg) (bit : Nat) (value : Bool)
    (s : MCP23017) : MCP23017 × List BusEvent × List LogMsg :=
  let cache_old := s.cache.get register
  let cache_new :=
    if value then
      cache_old ||| ((1 <<< bit) &&& 0xFFFF)
    else
      cache_old &&& (0xFFFF ^^^ ((1 <<< bit) &&& 0xFFFF))
  let s1 := { s with cache := s.cache.set register cache_new }
  if cache_old ≠ cache_new then
    if bit < 8 then
      let addr := regAddrA register
      let byte := cache_new &&& 0xFF
      let r2 := setitem (bus.write addr byte) s1
      (r2.1, [.write addr byte], r2.2)
    else
      let addr := regAddrB register
      let byte := (cache_new >>> 8) &&& 0xFF
      let r2 := setitem (bus.write addr byte) s1
      (r2.1, [.write addr byte], r2.2)
  else
    (s1, [], [])

/-- `_get_register_value(register, bit)`: read the bank holding `bit`,
merge the byte into the corresponding half of the cached value, and
return `bool(cache & (1 << bit))` of the merged value. -/
def get_register_value (bus : BusModel) (register : Reg) (bit : Nat)
    (s : MCP23017) : Bool × MCP23017 × List BusEvent × List LogMsg :=
  if bit < 8 then
    let addr := regAddrA register
    let r1 := getitem (bus.read addr) s
    let value := r1.1 &&& 0xFF
    let merged := r1.2.1.cache.get register &&& 0xFF00 ||| value
    let s2 := { r1.2.1 with cache := r1.2.1.cache.set register merged }
    (decide (merged &&& (1 <<< bit) ≠ 0), s2, [.read addr], r1.2.2)
  else
    let addr := regAddrB register
    let r1 := getitem (bus.read addr) s
    let value := r1.1 &&& 0xFF
    let merged := r1.2.1.cache.get register &&& 0x00FF ||| (value <<< 8)
    let s2 := { r1.2.1 with cache := r1.2.1.cache.set register merged }
    (decide (merged &&& (1 <<< bit) ≠ 0), s2, [.read addr], r1.2.2)

/-- `get_pin_value(pin)`. -/
def get_pin_value (bus : BusModel) (pin : Nat) (s : MCP23017) :
    Bool × MCP23017 × List BusEvent × List LogMsg :=
  get_register_value bus .gpio pin s

/-- `set_pin_value(pin, value)`. -/
def set_pin_value (bus : BusModel) (pin : Nat) (value : Bool) (s : MCP23017) :
    MCP23017 × List BusEvent × List LogMsg :=
  set_register_value bus .OLAT pin value s

/-- `set_input(pin, is_input)`. -/
def set_input (bus : BusModel) (pin : Nat) (is_input : Bool) (s : MCP23017) :
    MCP23017 × List BusEvent × List LogMsg :=
  set_register_value bus .IODIR pin is_input s

/-- `set_pullup(pin, is_pullup)`. -/
def set_pullup (bus : BusModel) (pin : Nat) (is_pullup : Bool) (s : MCP23017) :
    MCP23017 × List BusEvent × List LogMsg :=
  set_register_value bus .GPPU pin is_pullup s

/-- `hasattr(slot, "push_update")` for an entity-table slot:
`hasattr(None, "push_update")` is `False`. -/
def entityReactive : Option Entity → Bool
  | some e => e.hasPushUpdate
  | none => false

/-- `register_entity(entity)`: bind the entity at its pin and mark the
pin pending in the update bitmap (forces an initial notification). -/
def register_entity (e : Entity) (s : MCP23017) : MCP23017 :=
  { s with
    entities := s.entities.set e.pin (some e),
    update_bitmap := s.update_bitmap ||| ((1 <<< e.pin) &&& 0xFFFF) }

/-- `unregister_entity(pin_number)`.  An out-of-range index raises
IndexError from `self._entities[pin_number]`; an empty slot raises
AttributeError from `entity.unsubscribe_update_listener()` on `None`.
Either exception is raised before the slot assignment, so the returned
state is unchanged in both error cases; the `Option String` component
carries the exception reported to the caller. -/
def unregister_entity (pin_number : Nat) (s : MCP23017) : MCP23017 × Option String :=
  match s.entities.get? pin_number with
  | none => (s, some "IndexError")
  | some none => (s, some "AttributeError")
  | some (some _) => ({ s with entities := s.entities.set pin_number none }, none)

/-- `has_no_entities`: no slot of the entity table is occupied. -/
def has_no_entities (s : MCP23017) : Bool :=
  s.entities.all fun slot => slot = none

/-! ### The polling loop body (`run`) -/

/-- The `for pin in range(16)` dispatch loop of `run`: at each step, if
the low bit of the update bitmap is set and the entity at `pin` is
reactive, a notification `push_update(bool(input_state & 0x1))` is
delivered; then both `input_state` and the bitmap are shifted right.
`fuel` counts the remaining iterations (16 at the top-level call).
Returns the notifications in delivery order and the final bitmap. -/
def dispatch (entities : List (Option Entity)) :
    Nat → Nat → Nat → Nat → List (Nat × Bool) × Nat
  | _, 0, _, update_bitmap => ([], update_bitmap)
  | pin, fuel + 1, input_state, update_bitmap =>
    let note :=
      if update_bitmap &&& 0x1 ≠ 0 ∧ entityReactive (entities.getD pin none) then
        [(pin, decide (input_state &&& 0x1 ≠ 0))]
      else
        []
    let rest := dispatch entities (pin + 1) fuel (input_state >>> 1) (update_bitmap >>> 1)
    (note ++ rest.1, rest.2)

/-- Effects of one poll cycle: transport transactions, log messages and
the `push_update` notifications in delivery order. -/
structure PollEffects where
  reads : List BusEvent
  logs : List LogMsg
  notifications : List (Nat × Bool)
deriving DecidableEq

/-- One iteration of the `while self._run` body of `run` (the part
under the device lock): read a bank's GPIO register only when some
entity of that bank has `push_update`, merge into a working copy of the
cached GPIO value, accumulate changed bits into the update bitmap,
commit the working value to the cache and dispatch notifications. -/
def pollCycle (bus : BusModel) (s : MCP23017) : MCP23017 × PollEffects :=
  let input0 := s.cache.gpio
  let anyA := (s.entities.take 8).any entityReactive
  let stepA :=
    if anyA then
      let r1 := getitem (bus.read GPIOA) s
      (input0 &&& 0xFF00 ||| r1.1, r1.2.1, [BusEvent.read GPIOA], r1.2.2)
    else
      (input0, s, [], [])
  let stepB :=
    if (stepA.2.1.entities.drop 8).take 8 |>.any entityReactive then
      let r2 := getitem (bus.read GPIOB) stepA.2.1
      (stepA.1 &&& 0x00FF ||| (r2.1 <<< 8), r2.2.1, [BusEvent.read GPIOB], r2.2.2)
    else
      (stepA.1, stepA.2.1, [], [])
  let input_state := stepB.1
  let s2 := stepB.2.1
  let bitmap := s2.update_bitmap ||| (input_state ^^^ s2.cache.gpio)
  let s3 := { s2 with cache := { s2.cache with gpio := input_state }, update_bitmap := bitmap }
  let disp := dispatch s3.entities 0 16 input_state bitmap
  ({ s3 with update_bitmap := disp.2 },
   { reads := stepA.2.2.1 ++ stepB.2.2.1,
     logs := stepA.2.2.2 ++ stepB.2.2.2,
     notifications := disp.1 })

/-! ### Thread lifecycle (`start_polling` / `stop_polling`) -/

/-- Thread-lifecycle state of the device: `started` records whether
`threading.Thread.start()` has ever been called on this object, `run`
is `self._run`.  Python semantics (threading docs): `start()` raises
RuntimeError if called more than once on the same thread object;
`join()` raises RuntimeError if called before `start()`; joining an
already-terminated thread returns normally. -/
structure ThreadCtl where
  started : Bool
  running : Bool
deriving DecidableEq

/-- `start_polling()`: set `self._run = True` then `self.start()`.
The second and later calls hit `threading.Thread.start()`'s
once-per-object restriction and raise RuntimeError. -/
def start_polling (t : ThreadCtl) : Except String ThreadCtl :=
  let t1 := { t with running := true }
  if t1.started then
    .error "RuntimeError"
  else
    .ok { t1 with started := true }

/-- `stop_polling()`: set `self._run = False` then `self.join()`.
Joining is fine any number of times once the thread was started, but
raises RuntimeError when the thread was never started. -/
def stop_polling (t : ThreadCtl) : Except String ThreadCtl :=
  let t1 := { t with running := false }
  if t1.started then
    .ok t1
  else
    .error "RuntimeError"

/-! ### Transport fault episodes -/

/-- Kind of a transport transaction (both wrappers share the same fault
bookkeeping). -/
inductive OpKind where
  | read
  | write
deriving DecidableEq

/-- One transport call of the given kind with the given outcome
(`ok = false` models OSError), keeping only state and logs. -/
def transport_step (op : OpKind) (ok : Bool) (s : MCP23017) : MCP23017 × List LogMsg :=
  match op with
  | .write => setitem ok s
  | .read =>
    let r := getitem (if ok then bus_placeholder else none) s
    (r.2.1, r.2.2)
where
  /-- an arbitrary successful read outcome; the fault bookkeeping does
  not depend on the byte value -/
  bus_placeholder : Option Nat := some 0

/-- A sequence of transport calls, collecting all log messages. -/
def run_transport : List (OpKind × Bool) → MCP23017 → MCP23017 × List LogMsg
  | [], s => (s, [])
  | op :: ops, s =>
    let r := transport_step op.1 op.2 s
    let rest := run_transport ops r.1
    (rest.1, r.2 ++ rest.2)

/-! ### Generic bit-level helper lemmas -/

theorem testBit_mask16 (i : Nat) : Nat.testBit 0xFFFF i = decide (i < 16) := by
  rw [show (0xFFFF : Nat) = 2 ^ 16 - 1 by norm_num, Nat.testBit_two_pow_sub_one]

theorem testBit_maskFF (i : Nat) : Nat.testBit 0xFF i = decide (i < 8) := by
  rw [show (0xFF : Nat) = 2 ^ 8 - 1 by norm_num, Nat.testBit_two_pow_sub_one]

theorem testBit_maskFF00 (i : Nat) :
    Nat.testBit 0xFF00 i = (decide (8 ≤ i) && decide (i < 16)) := by
  rw [show (0xFF00 : Nat) = (2 ^ 8 - 1) <<< 8 by rw [Nat.shiftLeft_eq]; norm_num,
    Nat.testBit_shiftLeft, Nat.testBit_two_pow_sub_one]
  rcases Nat.lt_or_ge i 8 with h | h
  · simp [Nat.not_le.mpr h, Nat.not_lt.mpr (Nat.le_of_lt h)]
  · have : (i - 8 < 8) = (i < 16) := by
      apply propext; omega
    simp [h, this]

theorem testBit_of_le_255 {a : Nat} (ha : a ≤ 255) {i : Nat} (hi : 8 ≤ i) :
    Nat.testBit a i = false := by
  apply Nat.testBit_eq_false_of_lt
  calc a < 2 ^ 8 := by omega
    _ ≤ 2 ^ i := Nat.pow_le_pow_right (by norm_num) hi

theorem testBit_of_lt_two16 {a : Nat} (ha : a < 65536) {i : Nat} (hi : 16 ≤ i) :
    Nat.testBit a i = false := by
  apply Nat.testBit_eq_false_of_lt
  calc a < 2 ^ 16 := by omega
    _ ≤ 2 ^ i := Nat.pow_le_pow_right (by norm_num) hi

theorem and_one_shiftLeft_ne_zero (x i : Nat) :
    decide (x &&& (1 <<< i) ≠ 0) = Nat.testBit x i := by
  rw [Nat.one_shiftLeft, Nat.and_two_pow]
  cases h : Nat.testBit x i <;> simp [h, (Nat.two_pow_pos i).ne']

/-! ### Projection lemmas for the transport wrappers -/

theorem setitem_cache (ok : Bool) (s : MCP23017) : ((setitem ok s).1).cache = s.cache := by
  unfold setitem
  split_ifs <;> rfl

theorem setitem_entities (ok : Bool) (s : MCP23017) :
    ((setitem ok s).1).entities = s.entities := by
  unfold setitem
  split_ifs <;> rfl

theorem getitem_data (o : Option Nat) (s : MCP23017) : (getitem o s).1 = o.getD 0 := by
  cases o <;> simp only [getitem] <;> split_ifs <;> rfl

theorem getitem_cache (o : Option Nat) (s : MCP23017) :
    ((getitem o s).2.1).cache = s.cache := by
  cases o <;> simp only [getitem] <;> split_ifs <;> rfl

theorem getitem_entities (o : Option Nat) (s : MCP23017) :
    ((getitem o s).2.1).entities = s.entities := by
  cases o <;> simp only [getitem] <;> split_ifs <;> rfl

theorem getitem_update_bitmap (o : Option Nat) (s : MCP23017) :
    ((getitem o s).2.1).update_bitmap = s.update_bitmap := by
  cases o <;> simp only [getitem] <;> split_ifs <;> rfl

/-! ### Cache access lemmas -/

theorem Cache.get_set_self (c : Cache) (r : Reg) (v : Nat) : (c.set r v).get r = v := by
  cases r <;> rfl

theorem Cache.set_get_self (c : Cache) (r : Reg) : c.set r (c.get r) = c := by
  cases r <;> rfl

/-! ### Characterization of `_set_register_value` -/

/-- The new 16-bit cache value computed by `_set_register_value`. -/
def newCacheValue (old : Nat) (bit : Nat) (value : Bool) : Nat :=
  if value then
    old ||| ((1 <<< bit) &&& 0xFFFF)
  else
    old &&& (0xFFFF ^^^ ((1 <<< bit) &&& 0xFFFF))

theorem set_register_value_cache (bus : BusModel) (r : Reg) (bit : Nat) (v : Bool)
    (s : MCP23017) :
    ((set_register_value bus r bit v s).1).cache.get r =
      newCacheValue (s.cache.get r) bit v := by
  simp only [set_register_value, newCacheValue]
  split_ifs <;> simp [setitem_cache, Cache.get_set_self]

theorem set_register_value_events (bus : BusModel) (r : Reg) (bit : Nat) (v : Bool)
    (s : MCP23017) :
    (set_register_value bus r bit v s).2.1 =
      if newCacheValue (s.cache.get r) bit v = s.cache.get r then []
      else
        [BusEvent.write (if bit < 8 then regAddrA r else regAddrB r)
          (if bit < 8 then newCacheValue (s.cache.get r) bit v &&& 0xFF
           else (newCacheValue (s.cache.get r) bit v >>> 8) &&& 0xFF)] := by
  simp only [set_register_value, newCacheValue]
  split_ifs <;> first | rfl | tauto

theorem setitem_update_bitmap (ok : Bool) (s : MCP23017) :
    ((setitem ok s).1).update_bitmap = s.update_bitmap := by
  unfold setitem
  split_ifs <;> rfl

theorem set_register_value_cache_full (bus : BusModel) (r : Reg) (bit : Nat) (v : Bool)
    (s : MCP23017) :
    ((set_register_value bus r bit v s).1).cache =
      s.cache.set r (newCacheValue (s.cache.get r) bit v) := by
  simp only [set_register_value, newCacheValue]
  split_ifs <;> simp [setitem_cache]

theorem newCacheValue_testBit_self (old bit : Nat) (v : Bool) (h : bit < 16) :
    Nat.testBit (newCacheValue old bit v) bit = v := by
  cases v <;>
    simp [newCacheValue, Nat.testBit_lor, Nat.testBit_land, Nat.testBit_xor,
      Nat.one_shiftLeft, Nat.testBit_two_pow, testBit_mask16, h]

theorem newCacheValue_testBit_other (old p q : Nat) (v : Bool) (hq : q < 16)
    (hne : p ≠ q) :
    Nat.testBit (newCacheValue old p v) q = Nat.testBit old q := by
  cases v <;>
    simp [newCacheValue, Nat.testBit_lor, Nat.testBit_land, Nat.testBit_xor,
      Nat.one_shiftLeft, Nat.testBit_two_pow, testBit_mask16, hq, hne]

theorem newCacheValue_idem (old bit : Nat) (v : Bool) :
    newCacheValue (newCacheValue old bit v) bit v = newCacheValue old bit v := by
  cases v <;>
    (apply Nat.eq_of_testBit_eq
     intro i
     simp [newCacheValue, Nat.testBit_lor, Nat.testBit_land, Bool.or_assoc,
       Bool.and_assoc])

/-! ### Sample inputs shared by the witnesses -/

/-- A transport stub where every access succeeds and reads return 0. -/
def busOK : BusModel := ⟨fun _ => some 0, fun _ _ => true⟩

/-- A transport stub where reads return 0x5A. -/
def busFiveA : BusModel := ⟨fun _ => some 0x5A, fun _ _ => true⟩

/-- A transport stub where every access raises OSError. -/
def busDown : BusModel := ⟨fun _ => none, fun _ _ => false⟩

/-- A fresh device state: all-zero cache, no fault, empty entity table. -/
def emptyDev : MCP23017 :=
  { cache := ⟨0, 0, 0, 0⟩, i2c_faulted := false, i2c_suppressed_logs := 0,
    entities := List.replicate 16 none, update_bitmap := 0 }

/-! ### Claim C1 -/

/-- Claim C1: for every cached register, pin 0..15 and boolean value,
`_set_register_value` performs no transport write when the new 16-bit
cache value equals the prior cached value; otherwise it performs exactly
one transport write of the affected byte (bank A address if `pin < 8`,
bank B address otherwise) and the cache afterwards holds the new value
(in particular bit `pin` equals the written value).  Writing the same
value twice in a row issues at most one transport write in total. -/
theorem set_bit_write_suppression (bus : BusModel) (r : Reg) (bit : Nat) (v : Bool)
    (s : MCP23017) (hbit : bit < 16) :
    ((set_register_value bus r bit v s).1.cache.get r = s.cache.get r →
      (set_register_value bus r bit v s).2.1 = []) ∧
    ((set_register_value bus r bit v s).1.cache.get r ≠ s.cache.get r →
      (set_register_value bus r bit v s).2.1 =
        [BusEvent.write (if bit < 8 then regAddrA r else regAddrB r)
          (if bit < 8 then (set_register_value bus r bit v s).1.cache.get r &&& 0xFF
           else ((set_register_value bus r bit v s).1.cache.get r >>> 8) &&& 0xFF)]) ∧
    Nat.testBit ((set_register_value bus r bit v s).1.cache.get r) bit = v ∧
    (set_register_value bus r bit v (set_register_value bus r bit v s).1).2.1 = [] ∧
    (set_register_value bus r bit v s).2.1.length +
      (set_register_value bus r bit v (set_register_value bus r bit v s).1).2.1.length ≤ 1 := by
  have hc := set_register_value_cache bus r bit v s
  have he := set_register_value_events bus r bit v s
  have he2 := set_register_value_events bus r bit v (set_register_value bus r bit v s).1
  have h4 : (set_register_value bus r bit v (set_register_value bus r bit v s).1).2.1 = [] := by
    rw [he2, hc, newCacheValue_idem]
    simp
  refine ⟨?_, ?_, ?_, h4, ?_⟩
  · intro h
    rw [hc] at h
    rw [he, if_pos h]
  · intro h
    rw [hc] at h
    rw [he, if_neg h, hc]
  · rw [hc]
    exact newCacheValue_testBit_self _ _ _ hbit
  · rw [he, h4]
    split_ifs <;> simp

/-- Witness for C1 at a concrete input (OLAT, pin 3, value true, fresh
device): the new cached value has bit 3 set and the second identical
write issues no transport write. -/
theorem set_bit_write_suppression_witness :
    Nat.testBit ((set_register_value busOK .OLAT 3 true emptyDev).1.cache.get .OLAT) 3 = true ∧
    (set_register_value busOK .OLAT 3 true
      (set_register_value busOK .OLAT 3 true emptyDev).1).2.1 = [] :=
  ⟨(set_bit_write_suppression busOK .OLAT 3 true emptyDev (by decide)).2.2.1,
   (set_bit_write_suppression busOK .OLAT 3 true emptyDev (by decide)).2.2.2.1⟩

/-! ### Claim C6 -/

/-- Claim C6: for every register, distinct pins `p ≠ q` in 0..15 and
boolean value, `set_bit` on pin `p` leaves the cached bit of pin `q`
unchanged (bit isolation, across the bank boundary as well). -/
theorem set_bit_isolation (bus : BusModel) (r : Reg) (p q : Nat) (v : Bool)
    (s : MCP23017) (hp : p < 16) (hq : q < 16) (hne : p ≠ q) :
    Nat.testBit ((set_register_value bus r p v s).1.cache.get r) q =
      Nat.testBit (s.cache.get r) q := by
  rw [set_register_value_cache]
  exact newCacheValue_testBit_other _ _ _ _ hq hne

/-- Witness for C6 across the bank boundary: setting pin 8 on a state
whose cached IODIR has bit 7 set leaves bit 7 untouched. -/
theorem set_bit_isolation_witness :
    Nat.testBit ((set_register_value busOK .IODIR 8 true
        { emptyDev with cache := ⟨0x80, 0, 0, 0⟩ }).1.cache.get .IODIR) 7 =
      Nat.testBit (({ emptyDev with cache := ⟨0x80, 0, 0, 0⟩ } : MCP23017).cache.get .IODIR) 7 :=
  set_bit_isolation busOK .IODIR 8 7 true { emptyDev with cache := ⟨0x80, 0, 0, 0⟩ }
    (by decide) (by decide) (by decide)

/-- Characterization of `_get_register_value`: the single read event,
the merged cache value and the returned bit. -/
theorem get_register_value_spec (bus : BusModel) (r : Reg) (bit : Nat) (s : MCP23017) :
    (get_register_value bus r bit s).2.2.1 =
      [BusEvent.read (if bit < 8 then regAddrA r else regAddrB r)] ∧
    (get_register_value bus r bit s).2.1.cache.get r =
      (if bit < 8 then
        s.cache.get r &&& 0xFF00 ||| ((bus.read (regAddrA r)).getD 0 &&& 0xFF)
       else
        s.cache.get r &&& 0x00FF ||| (((bus.read (regAddrB r)).getD 0 &&& 0xFF) <<< 8)) ∧
    (get_register_value bus r bit s).1 =
      Nat.testBit ((get_register_value bus r bit s).2.1.cache.get r) bit := by
  by_cases hb : bit < 8
  · simp only [get_register_value, if_pos hb, getitem_data, getitem_cache,
      Cache.get_set_self]
    exact ⟨trivial, trivial, and_one_shiftLeft_ne_zero _ _⟩
  · simp only [get_register_value, if_neg hb, getitem_data, getitem_cache,
      Cache.get_set_self]
    exact ⟨trivial, trivial, and_one_shiftLeft_ne_zero _ _⟩

/-! ### Claim C5 -/

/-- Claim C5: for every cached register and pin 0..15, `get_bit`
performs exactly one transport read (of the bank-A address if
`pin < 8`, the bank-B address otherwise), replaces the corresponding
half of the 16-bit cached value with the byte read, and returns bit
`pin` of the merged cache value. -/
theorem get_bit_single_read (bus : BusModel) (r : Reg) (bit : Nat) (s : MCP23017)
    (hbit : bit < 16) :
    (get_register_value bus r bit s).2.2.1 =
      [BusEvent.read (if bit < 8 then regAddrA r else regAddrB r)] ∧
    (get_register_value bus r bit s).2.1.cache.get r =
      (if bit < 8 then
        s.cache.get r &&& 0xFF00 ||| ((bus.read (regAddrA r)).getD 0 &&& 0xFF)
       else
        s.cache.get r &&& 0x00FF ||| (((bus.read (regAddrB r)).getD 0 &&& 0xFF) <<< 8)) ∧
    (get_register_value bus r bit s).1 =
      Nat.testBit ((get_register_value bus r bit s).2.1.cache.get r) bit :=
  get_register_value_spec bus r bit s

/-- A device state whose cached GPIO value is 0xABCD. -/
def devGpioABCD : MCP23017 :=
  { cache := ⟨0, 0, 0xABCD, 0⟩, i2c_faulted := false, i2c_suppressed_logs := 0,
    entities := List.replicate 16 none, update_bitmap := 0 }

/-- Witness for C5 at a concrete input: reading GPIO pin 3 of a device
whose cached GPIO value is 0xABCD over a transport returning 0x5A. -/
theorem get_bit_single_read_witness :
    (get_register_value busFiveA .gpio 3 devGpioABCD).2.2.1 = [BusEvent.read GPIOA] ∧
    (get_register_value busFiveA .gpio 3 devGpioABCD).2.1.cache.get .gpio = 0xAB5A ∧
    (get_register_value busFiveA .gpio 3 devGpioABCD).1 = true := by
  have h := get_bit_single_read busFiveA .gpio 3 devGpioABCD (by decide)
  refine ⟨?_, ?_, ?_⟩
  · rw [h.1]
    decide
  · rw [h.2.1]
    decide
  · rw [h.2.2]
    decide

/-! ### Claim C7 (corrected) -/

/-- Counterexample to claim C7 as stated: on a fresh device with an
all-zero cache, `set_pin_value(3, true)` issues a successful transport
write of the OLAT bank-A byte (no fault log), yet bit 3 of the cached
GPIO value is still false afterwards — `set_pin_value` updates the OLAT
cache, not the GPIO cache. -/
theorem write_pin_gpio_cache_cex :
    (set_pin_value busOK 3 true emptyDev).2.1 = [BusEvent.write OLATA 0x08] ∧
    (set_pin_value busOK 3 true emptyDev).2.2 = [] ∧
    Nat.testBit ((set_pin_value busOK 3 true emptyDev).1.cache.gpio) 3 = false := by
  decide

/-- Claim C7 (amended): immediately after a successful `write_pin(p, v)`
the cached OLAT value has bit `p` equal to `v`; the cached GPIO value is
unchanged by `write_pin` and reflects the output only after a subsequent
read or poll of the GPIO register. -/
theorem write_pin_updates_olat_cache (bus : BusModel) (pin : Nat) (v : Bool)
    (s : MCP23017) (hpin : pin < 16) :
    Nat.testBit ((set_pin_value bus pin v s).1.cache.olat) pin = v ∧
    (set_pin_value bus pin v s).1.cache.gpio = s.cache.gpio := by
  constructor
  · have h : Nat.testBit ((set_register_value bus .OLAT pin v s).1.cache.get .OLAT) pin = v := by
      rw [set_register_value_cache]
      exact newCacheValue_testBit_self _ _ _ hpin
    exact h
  · show (set_register_value bus .OLAT pin v s).1.cache.gpio = s.cache.gpio
    rw [set_register_value_cache_full]
    rfl

/-- Witness for the amended C7: writing pin 3 high on a fresh device
sets bit 3 of the cached OLAT value and leaves the cached GPIO value
untouched. -/
theorem write_pin_updates_olat_cache_witness :
    Nat.testBit ((set_pin_value busOK 3 true emptyDev).1.cache.olat) 3 = true ∧
    (set_pin_value busOK 3 true emptyDev).1.cache.gpio = emptyDev.cache.gpio :=
  write_pin_updates_olat_cache busOK 3 true emptyDev (by decide)

/-! ### Claim C10 -/

/-- Claim C10: if the transport read fails during `get_pin_value(p)`,
the relevant half of the cached GPIO value (low byte if `p < 8`, high
byte otherwise) is overwritten with the placeholder byte 0 even though
no hardware value was obtained, and the call returns bit `p` of that
zeroed cache value (hence `false`). -/
theorem get_pin_fault_placeholder (bus : BusModel) (pin : Nat) (s : MCP23017) :
    (pin < 8 → bus.read GPIOA = none →
      (get_pin_value bus pin s).2.1.cache.gpio = s.cache.gpio &&& 0xFF00 ∧
      (get_pin_value bus pin s).1 = Nat.testBit (s.cache.gpio &&& 0xFF00) pin ∧
      (get_pin_value bus pin s).1 = false) ∧
    (8 ≤ pin → pin < 16 → bus.read GPIOB = none →
      (get_pin_value bus pin s).2.1.cache.gpio = s.cache.gpio &&& 0x00FF ∧
      (get_pin_value bus pin s).1 = Nat.testBit (s.cache.gpio &&& 0x00FF) pin ∧
      (get_pin_value bus pin s).1 = false) := by
  constructor
  · intro hb hr
    obtain ⟨-, hcache, hres⟩ := get_register_value_spec bus .gpio pin s
    rw [if_pos hb, show regAddrA Reg.gpio = GPIOA from rfl, hr] at hcache
    simp only [Option.getD_none, Nat.zero_and, Nat.or_zero] at hcache
    have hcache' : (get_pin_value bus pin s).2.1.cache.gpio = s.cache.gpio &&& 0xFF00 :=
      hcache
    have hbitfalse : Nat.testBit (s.cache.gpio &&& 0xFF00) pin = false := by
      simp [Nat.testBit_land, testBit_maskFF00, show ¬(8 ≤ pin) by omega]
    refine ⟨hcache', ?_, ?_⟩
    · show (get_register_value bus .gpio pin s).1 = _
      rw [hres, hcache]
      rfl
    · show (get_register_value bus .gpio pin s).1 = _
      rw [hres, hcache]
      exact hbitfalse
  · intro hb hb16 hr
    obtain ⟨-, hcache, hres⟩ := get_register_value_spec bus .gpio pin s
    rw [if_neg (by omega : ¬pin < 8), show regAddrB Reg.gpio = GPIOB from rfl, hr]
      at hcache
    simp only [Option.getD_none, Nat.zero_and, Nat.zero_shiftLeft, Nat.or_zero]
      at hcache
    have hcache' : (get_pin_value bus pin s).2.1.cache.gpio = s.cache.gpio &&& 0x00FF :=
      hcache
    have hbitfalse : Nat.testBit (s.cache.gpio &&& 0x00FF) pin = false := by
      simp [Nat.testBit_land, testBit_maskFF, show ¬(pin < 8) by omega]
    refine ⟨hcache', ?_, ?_⟩
    · show (get_register_value bus .gpio pin s).1 = _
      rw [hres, hcache]
      rfl
    · show (get_register_value bus .gpio pin s).1 = _
      rw [hres, hcache]
      exact hbitfalse

/-- Witness for C10: with the transport down, reading pin 3 of a device
whose cached GPIO value is 0xABCD zeroes the low byte of the cache and
returns false. -/
theorem get_pin_fault_placeholder_witness :
    (get_pin_value busDown 3 devGpioABCD).2.1.cache.gpio = 0xABCD &&& 0xFF00 ∧
    (get_pin_value busDown 3 devGpioABCD).1 = false :=
  ⟨((get_pin_fault_placeholder busDown 3 devGpioABCD).1 (by decide) rfl).1,
   ((get_pin_fault_placeholder busDown 3 devGpioABCD).1 (by decide) rfl).2.2⟩

/-! ### Claim C4 -/

theorem run_transport_cons (op : OpKind × Bool) (ops : List (OpKind × Bool))
    (s : MCP23017) :
    run_transport (op :: ops) s =
      ((run_transport ops (transport_step op.1 op.2 s).1).1,
       (transport_step op.1 op.2 s).2 ++
         (run_transport ops (transport_step op.1 op.2 s).1).2) :=
  rfl

theorem run_transport_append (a b : List (OpKind × Bool)) (s : MCP23017) :
    run_transport (a ++ b) s =
      ((run_transport b (run_transport a s).1).1,
       (run_transport a s).2 ++ (run_transport b (run_transport a s).1).2) := by
  induction a generalizing s with
  | nil => simp [run_transport]
  | cons op ops ih =>
    rw [List.cons_append, run_transport_cons, run_transport_cons, ih,
      List.append_assoc]

/-- While already faulted, a run of consecutive failures only bumps the
suppressed counter and logs nothing. -/
theorem run_transport_failures (ops : List (OpKind × Bool))
    (hops : ∀ op ∈ ops, op.2 = false) (s : MCP23017) (hf : s.i2c_faulted = true) :
    run_transport ops s =
      ({ s with i2c_suppressed_logs := s.i2c_suppressed_logs + ops.length }, []) := by
  induction ops generalizing s with
  | nil =>
    simp [run_transport]
  | cons op rest ih =>
    have hop : op.2 = false := hops op (List.mem_cons_self _ _)
    have hstep : transport_step op.1 op.2 s =
        ({ s with i2c_suppressed_logs := s.i2c_suppressed_logs + 1 }, []) := by
      rw [hop]
      cases op.1 <;> simp [transport_step, setitem, getitem, hf]
    rw [run_transport_cons, hstep]
    dsimp only
    rw [ih (fun o ho => hops o (List.mem_cons_of_mem _ ho))
      { s with i2c_suppressed_logs := s.i2c_suppressed_logs + 1 } hf]
    simp only [Prod.mk.injEq, MCP23017.mk.injEq, List.length_cons, true_and,
      and_true, List.nil_append]
    omega

/-- Claim C4: starting from a non-faulted state, a fault episode of
`n ≥ 1` consecutive transport failures followed by one success produces
exactly the log sequence `[error, recovery (n - 1)]` and returns to the
non-faulted state with the suppressed counter reset; moreover, each
individual step behaves as the claim states: the first failure sets the
faulted flag and logs one error, further failures while faulted only
increment the suppressed counter, the first success while faulted clears
the flag, logs one recovery with the suppressed count and resets the
counter, and a failing read returns the placeholder 0 (no exception is
modelled: every wrapper call returns normally). -/
theorem transport_fault_episode (kinds : List OpKind) (k : OpKind) (s : MCP23017)
    (hclean : s.i2c_faulted = false) (hne : kinds ≠ []) :
    run_transport (kinds.map (fun kk => (kk, false)) ++ [(k, true)]) s =
      ({ s with i2c_suppressed_logs := 0 },
       [LogMsg.error, LogMsg.recovery (kinds.length - 1)]) ∧
    (∀ (kk : OpKind) (t : MCP23017), t.i2c_faulted = false →
      transport_step kk false t =
        ({ t with i2c_faulted := true, i2c_suppressed_logs := 0 }, [LogMsg.error])) ∧
    (∀ (kk : OpKind) (t : MCP23017), t.i2c_faulted = true →
      transport_step kk false t =
        ({ t with i2c_suppressed_logs := t.i2c_suppressed_logs + 1 }, [])) ∧
    (∀ (kk : OpKind) (t : MCP23017), t.i2c_faulted = true →
      transport_step kk true t =
        ({ t with i2c_faulted := false, i2c_suppressed_logs := 0 },
         [LogMsg.recovery t.i2c_suppressed_logs])) ∧
    (∀ t, (getitem none t).1 = 0) := by
  have hfailclean : ∀ (kk : OpKind) (t : MCP23017), t.i2c_faulted = false →
      transport_step kk false t =
        ({ t with i2c_faulted := true, i2c_suppressed_logs := 0 }, [LogMsg.error]) := by
    intro kk t h
    cases kk <;> simp [transport_step, setitem, getitem, h]
  have hfailfaulted : ∀ (kk : OpKind) (t : MCP23017), t.i2c_faulted = true →
      transport_step kk false t =
        ({ t with i2c_suppressed_logs := t.i2c_suppressed_logs + 1 }, []) := by
    intro kk t h
    cases kk <;> simp [transport_step, setitem, getitem, h]
  have hrecover : ∀ (kk : OpKind) (t : MCP23017), t.i2c_faulted = true →
      transport_step kk true t =
        ({ t with i2c_faulted := false, i2c_suppressed_logs := 0 },
         [LogMsg.recovery t.i2c_suppressed_logs]) := by
    intro kk t h
    cases kk <;> simp [transport_step, transport_step.bus_placeholder, setitem, getitem, h]
  refine ⟨?_, hfailclean, hfailfaulted, hrecover, fun t => by simp [getitem_data]⟩
  obtain ⟨k0, rest, rfl⟩ : ∃ k0 rest, kinds = k0 :: rest := by
    cases kinds with
    | nil => exact absurd rfl hne
    | cons a l => exact ⟨a, l, rfl⟩
  obtain ⟨cache, fl, logs, ents, bm⟩ := s
  simp only at hclean
  subst hclean
  rw [List.map_cons, List.cons_append, run_transport_cons,
    hfailclean k0 ⟨cache, false, logs, ents, bm⟩ rfl]
  dsimp only
  rw [run_transport_append,
    run_transport_failures (rest.map fun kk => (kk, false)) (by simp)
      ⟨cache, true, 0, ents, bm⟩ rfl]
  dsimp only
  rw [run_transport_cons,
    hrecover k ⟨cache, true, 0 + (rest.map fun kk => (kk, false)).length, ents, bm⟩ rfl]
  dsimp only
  simp [run_transport]

/-- Witness for C4: three consecutive failures (read, write, read) then
one successful write, starting from a fresh device, log exactly one
error and one recovery carrying the two suppressed failures. -/
theorem transport_fault_episode_witness :
    run_transport ([OpKind.read, OpKind.write, OpKind.read].map (fun kk => (kk, false))
        ++ [(OpKind.write, true)]) emptyDev =
      ({ emptyDev with i2c_suppressed_logs := 0 },
       [LogMsg.error, LogMsg.recovery 2]) :=
  (transport_fault_episode [OpKind.read, OpKind.write, OpKind.read] OpKind.write emptyDev
    rfl (by decide)).1

/-! ### Claim C8 (corrected) -/

/-- Counterexample to claim C8 as stated: starting a fresh device works
once, but calling `start_polling` again while polling is already running
raises RuntimeError (Python threads can be started at most once), so
`start_polling` is not idempotent relative to the running state. -/
theorem start_polling_twice_cex :
    start_polling { started := false, running := false } =
      .ok { started := true, running := true } ∧
    start_polling { started := true, running := true } = .error "RuntimeError" :=
  ⟨rfl, rfl⟩

/-- Claim C8 (amended): `stop_polling` is idempotent once the polling
thread has been started — a repeated call succeeds and leaves the
stopped state unchanged; `start_polling`, however, succeeds only on a
never-started thread, and every call after the first raises RuntimeError
from the threading layer (which is why the start callback in
`async_setup` guards it with `is_alive()`). -/
theorem stop_polling_idempotent (t : ThreadCtl) (h : t.started = true) :
    stop_polling t = .ok { t with running := false } ∧
    stop_polling { t with running := false } = .ok { t with running := false } ∧
    (∀ u : ThreadCtl, u.started = true → start_polling u = .error "RuntimeError") ∧
    (∀ u : ThreadCtl, u.started = false →
      start_polling u = .ok { u with started := true, running := true }) := by
  refine ⟨?_, ?_, ?_, ?_⟩
  · simp [stop_polling, h]
  · simp [stop_polling, h]
  · intro u hu
    simp [start_polling, hu]
  · intro u hu
    simp [start_polling, hu]

/-- Witness for the amended C8 on a started, running thread. -/
theorem stop_polling_idempotent_witness :
    stop_polling { started := true, running := true } =
      .ok { started := true, running := false } ∧
    stop_polling { started := true, running := false } =
      .ok { started := true, running := false } :=
  ⟨(stop_polling_idempotent ⟨true, true⟩ rfl).1,
   (stop_polling_idempotent ⟨true, true⟩ rfl).2.1⟩

/-- If the computed new cache value equals the old one,
`_set_register_value` is a complete no-op. -/
theorem set_register_value_noop (bus : BusModel) (r : Reg) (bit : Nat) (v : Bool)
    (s : MCP23017) (h : newCacheValue (s.cache.get r) bit v = s.cache.get r) :
    set_register_value bus r bit v s = (s, [], []) := by
  simp only [newCacheValue] at h
  simp only [set_register_value]
  rw [if_neg (fun hne => hne h.symm), h, Cache.set_get_self]

/-! ### Claim C9 -/

/-- Claim C9: misuse is never fatal to the device or to other observers.
`unregister_entity` on an out-of-range pin raises IndexError, and on an
unbound pin raises AttributeError, in both cases before any mutation, so
the device state is returned unchanged and the exception is reported to
the immediate caller; on a bound pin it only clears that slot, leaving
the cache, the update bitmap and every other pin's binding intact.
`get_pin_value` on a nonexistent pin (≥ 16) simply returns `false`, and
`set_register_value` on a nonexistent pin of an in-range cache value is
a complete no-op. -/
theorem misuse_not_fatal (s : MCP23017) (pin : Nat) :
    (s.entities[pin]? = none →
      unregister_entity pin s = (s, some "IndexError")) ∧
    (s.entities[pin]? = some none →
      unregister_entity pin s = (s, some "AttributeError")) ∧
    (∀ e : Entity, s.entities[pin]? = some (some e) →
      (unregister_entity pin s).2 = none ∧
      (unregister_entity pin s).1.cache = s.cache ∧
      (unregister_entity pin s).1.update_bitmap = s.update_bitmap ∧
      ∀ q, q ≠ pin →
        (unregister_entity pin s).1.entities.getD q none = s.entities.getD q none) ∧
    (∀ bus : BusModel, 16 ≤ pin → (get_pin_value bus pin s).1 = false) ∧
    (∀ (bus : BusModel) (r : Reg) (v : Bool), s.cache.get r < 65536 → 16 ≤ pin →
      set_register_value bus r pin v s = (s, [], [])) := by
  refine ⟨?_, ?_, ?_, ?_, ?_⟩
  · intro h
    simp [unregister_entity, h]
  · intro h
    simp [unregister_entity, h]
  · intro e h
    refine ⟨?_, ?_, ?_, ?_⟩ <;>
      simp [unregister_entity, h, List.getD_eq_getElem?_getD]
    intro q hq
    rw [List.getElem?_set_ne (fun heq => hq heq.symm)]
  · intro bus hpin
    obtain ⟨-, hcache, hres⟩ := get_register_value_spec bus .gpio pin s
    have hb : ¬pin < 8 := by omega
    rw [show (get_pin_value bus pin s).1 = (get_register_value bus .gpio pin s).1 from rfl,
      hres, hcache, if_neg hb]
    simp [Nat.testBit_lor, Nat.testBit_land, Nat.testBit_shiftLeft, testBit_maskFF,
      hb, show ¬pin - 8 < 8 by omega]
  · intro bus r v hlt hpin
    have hm : (1 <<< pin) &&& 0xFFFF = 0 := by
      rw [Nat.one_shiftLeft, show (0xFFFF : Nat) = 2 ^ 16 - 1 by norm_num,
        Nat.and_pow_two_sub_one_eq_mod]
      exact Nat.mod_eq_zero_of_dvd (pow_dvd_pow 2 hpin)
    have hnew : newCacheValue (s.cache.get r) pin v = s.cache.get r := by
      cases v with
      | false =>
        simp only [newCacheValue, Bool.false_eq_true, if_false, hm, Nat.xor_zero]
        rw [show (0xFFFF : Nat) = 2 ^ 16 - 1 by norm_num,
          Nat.and_pow_two_sub_one_eq_mod]
        exact Nat.mod_eq_of_lt hlt
      | true =>
        simp [newCacheValue, hm]
    exact set_register_value_noop bus r pin v s hnew

/-- Witness for C9: on a fresh device, unregistering the unbound pin 5
reports AttributeError and pin 20 reports IndexError, leaving the state
untouched in both cases. -/
theorem misuse_not_fatal_witness :
    unregister_entity 5 emptyDev = (emptyDev, some "AttributeError") ∧
    unregister_entity 20 emptyDev = (emptyDev, some "IndexError") :=
  ⟨(misuse_not_fatal emptyDev 5).2.1 rfl,
   (misuse_not_fatal emptyDev 20).1 rfl⟩

/-! ### Byte-merge helper lemmas for the polling loop -/

theorem land_FF_of_lor_shl8 (x b : Nat) : (x ||| b <<< 8) &&& 0xFF = x &&& 0xFF := by
  apply Nat.eq_of_testBit_eq
  intro i
  simp only [Nat.testBit_land, Nat.testBit_lor, Nat.testBit_shiftLeft, testBit_maskFF]
  rcases Nat.lt_or_ge i 8 with h | h
  · simp [h, Nat.not_le.mpr h]
  · simp [Nat.not_lt.mpr h]

theorem land_FF_land_FF (x : Nat) : (x &&& 0xFF) &&& 0xFF = x &&& 0xFF := by
  apply Nat.eq_of_testBit_eq
  intro i
  simp [Nat.testBit_land, Bool.and_assoc]

theorem land_FF_of_bankA_merge (g a : Nat) (ha : a ≤ 255) :
    (g &&& 0xFF00 ||| a) &&& 0xFF = a := by
  apply Nat.eq_of_testBit_eq
  intro i
  simp only [Nat.testBit_land, Nat.testBit_lor, testBit_maskFF, testBit_maskFF00]
  rcases Nat.lt_or_ge i 8 with h | h
  · simp [h, Nat.not_le.mpr h]
  · simp [Nat.not_lt.mpr h, testBit_of_le_255 ha h]

theorem shr8_of_bankB_merge (x b : Nat) : (x &&& 0xFF ||| b <<< 8) >>> 8 = b := by
  apply Nat.eq_of_testBit_eq
  intro i
  simp only [Nat.testBit_shiftRight, Nat.testBit_lor, Nat.testBit_land,
    Nat.testBit_shiftLeft, testBit_maskFF]
  simp [show ¬(8 + i < 8) by omega, show 8 + i ≥ 8 by omega,
    show 8 + i - 8 = i from by omega]

theorem shr8_of_bankA_merge (g a : Nat) (ha : a ≤ 255) (hg : g < 65536) :
    (g &&& 0xFF00 ||| a) >>> 8 = g >>> 8 := by
  apply Nat.eq_of_testBit_eq
  intro i
  simp only [Nat.testBit_shiftRight, Nat.testBit_lor, Nat.testBit_land, testBit_maskFF00]
  rcases Nat.lt_or_ge i 8 with h | h
  · simp [show (8:Nat) ≤ 8 + i from by omega, show 8 + i < 16 from by omega,
      testBit_of_le_255 ha (show (8:Nat) ≤ 8 + i from by omega)]
  · simp [show ¬(8 + i < 16) by omega,
      testBit_of_le_255 ha (show (8:Nat) ≤ 8 + i from by omega),
      testBit_of_lt_two16 hg (show 16 ≤ 8 + i from by omega)]

/-! ### Characterization of one poll cycle -/

/-- The working GPIO value computed by one poll cycle (abbreviation used
in lemma statements; it matches the body of `pollCycle`). -/
def pollInput (bus : BusModel) (s : MCP23017) : Nat :=
  let input0 := s.cache.gpio
  let input1 :=
    if (s.entities.take 8).any entityReactive then
      input0 &&& 0xFF00 ||| (bus.read GPIOA).getD 0
    else
      input0
  if ((s.entities.drop 8).take 8).any entityReactive then
    input1 &&& 0x00FF ||| ((bus.read GPIOB).getD 0 <<< 8)
  else
    input1

theorem pollCycle_gpio (bus : BusModel) (s : MCP23017) :
    (pollCycle bus s).1.cache.gpio = pollInput bus s := by
  by_cases hA : (s.entities.take 8).any entityReactive <;>
    by_cases hB : ((s.entities.drop 8).take 8).any entityReactive <;>
    simp [pollCycle, pollInput, hA, hB, getitem_entities, getitem_cache, getitem_data]

theorem pollCycle_entities (bus : BusModel) (s : MCP23017) :
    (pollCycle bus s).1.entities = s.entities := by
  by_cases hA : (s.entities.take 8).any entityReactive <;>
    by_cases hB : ((s.entities.drop 8).take 8).any entityReactive <;>
    simp [pollCycle, hA, hB, getitem_entities, getitem_cache, getitem_data]

theorem pollCycle_reads (bus : BusModel) (s : MCP23017) :
    (pollCycle bus s).2.reads =
      (if (s.entities.take 8).any entityReactive then [BusEvent.read GPIOA] else []) ++
      (if ((s.entities.drop 8).take 8).any entityReactive then [BusEvent.read GPIOB]
       else []) := by
  by_cases hA : (s.entities.take 8).any entityReactive <;>
    by_cases hB : ((s.entities.drop 8).take 8).any entityReactive <;>
    simp [pollCycle, hA, hB, getitem_entities, getitem_cache, getitem_data]

theorem pollCycle_notifications (bus : BusModel) (s : MCP23017) :
    (pollCycle bus s).2.notifications =
      (dispatch s.entities 0 16 (pollInput bus s)
        (s.update_bitmap ||| (pollInput bus s ^^^ s.cache.gpio))).1 := by
  by_cases hA : (s.entities.take 8).any entityReactive <;>
    by_cases hB : ((s.entities.drop 8).take 8).any entityReactive <;>
    simp [pollCycle, pollInput, hA, hB, getitem_entities, getitem_cache,
      getitem_update_bitmap, getitem_data]

/-! ### Claim C2 -/

/-- Claim C2: in every poll cycle, the bank-A GPIO register is read from
the transport if and only if some pin in 0..7 has a bound reactive
observer, in which case the byte read replaces the low byte of the
working GPIO value (committed to the cache); otherwise the cached low
byte is reused and no bank-A transport read occurs; symmetrically for
bank B and pins 8..15. -/
theorem poll_reads_only_reactive_banks (bus : BusModel) (s : MCP23017)
    (hA : (bus.read GPIOA).getD 0 ≤ 255) (hB : (bus.read GPIOB).getD 0 ≤ 255)
    (hgpio : s.cache.gpio < 65536) :
    (pollCycle bus s).2.reads =
      (if (s.entities.take 8).any entityReactive then [BusEvent.read GPIOA] else []) ++
      (if ((s.entities.drop 8).take 8).any entityReactive then [BusEvent.read GPIOB]
       else []) ∧
    (pollCycle bus s).1.cache.gpio &&& 0xFF =
      (if (s.entities.take 8).any entityReactive then (bus.read GPIOA).getD 0
       else s.cache.gpio &&& 0xFF) ∧
    (pollCycle bus s).1.cache.gpio >>> 8 =
      (if ((s.entities.drop 8).take 8).any entityReactive then (bus.read GPIOB).getD 0
       else s.cache.gpio >>> 8) := by
  refine ⟨pollCycle_reads bus s, ?_, ?_⟩ <;>
    rw [pollCycle_gpio] <;>
    by_cases hbankA : (s.entities.take 8).any entityReactive <;>
    by_cases hbankB : ((s.entities.drop 8).take 8).any entityReactive <;>
    simp only [pollInput, hbankA, hbankB, if_true, if_false, ite_true, ite_false,
      Bool.false_eq_true]
  · rw [show ((s.cache.gpio &&& 0xFF00 ||| (bus.read GPIOA).getD 0) &&& 0x00FF |||
        (bus.read GPIOB).getD 0 <<< 8) &&& 0xFF =
        (s.cache.gpio &&& 0xFF00 ||| (bus.read GPIOA).getD 0) &&& 0xFF from
      Eq.trans (land_FF_of_lor_shl8 _ _) (land_FF_land_FF _)]
    exact land_FF_of_bankA_merge _ _ hA
  · exact land_FF_of_bankA_merge _ _ hA
  · rw [show (s.cache.gpio &&& 0x00FF ||| (bus.read GPIOB).getD 0 <<< 8) &&& 0xFF =
        (s.cache.gpio &&& 0xFF) &&& 0xFF from
      land_FF_of_lor_shl8 _ _]
    exact land_FF_land_FF _
  · exact shr8_of_bankB_merge _ _
  · exact shr8_of_bankA_merge _ _ hA hgpio
  · exact shr8_of_bankB_merge _ _

/-- A device state with one reactive entity bound at pin 3 and another
at pin 11, cached GPIO value 0x1234. -/
def devTwoReactive : MCP23017 :=
  { cache := ⟨0, 0, 0x1234, 0⟩, i2c_faulted := false, i2c_suppressed_logs := 0,
    entities :=
      (List.replicate 16 (none : Option Entity)).set 3 (some ⟨3, true⟩)
        |>.set 11 (some ⟨11, true⟩),
    update_bitmap := 0 }

/-- Witness for C2: with reactive observers at pins 3 and 11, one cycle
reads both banks and commits the bytes read (0x5A each) to the cache. -/
theorem poll_reads_only_reactive_banks_witness :
    (pollCycle busFiveA devTwoReactive).2.reads =
      [BusEvent.read GPIOA, BusEvent.read GPIOB] ∧
    (pollCycle busFiveA devTwoReactive).1.cache.gpio &&& 0xFF = 0x5A ∧
    (pollCycle busFiveA devTwoReactive).1.cache.gpio >>> 8 = 0x5A := by
  have h := poll_reads_only_reactive_banks busFiveA devTwoReactive (by decide) (by decide)
    (by decide)
  refine ⟨?_, ?_, ?_⟩
  · rw [h.1]
    decide
  · rw [h.2.1]
    decide
  · rw [h.2.2]
    decide

/-! ### Claim C3 -/

theorem and_one_ne_zero_iff (x : Nat) : (x &&& 1 ≠ 0) ↔ Nat.testBit x 0 = true := by
  rw [Nat.and_one_is_mod, Nat.testBit_zero]
  simp only [ne_eq, decide_eq_true_eq]
  omega

theorem decide_and_one (x : Nat) : decide (x &&& 1 ≠ 0) = Nat.testBit x 0 := by
  have h := and_one_shiftLeft_ne_zero x 0
  simpa using h

/-- The notifications of the dispatch loop that concern one pin `p`:
there is exactly one iff `p` lies in the processed range, its pending
bit is set and its entity is reactive, and it carries bit `p - pin` of
the working value. -/
theorem dispatch_filter (ents : List (Option Entity)) (p : Nat) :
    ∀ (fuel pin input bm : Nat),
      ((dispatch ents pin fuel input bm).1.filter fun note => note.1 = p) =
        (if pin ≤ p ∧ p < pin + fuel ∧ Nat.testBit bm (p - pin) = true ∧
            entityReactive (ents.getD p none) = true then
          [(p, Nat.testBit input (p - pin))]
        else []) := by
  intro fuel
  induction fuel with
  | zero =>
    intro pin input bm
    rw [if_neg]
    · rfl
    · rintro ⟨h1, h2, -⟩
      omega
  | succ fuel ih =>
    intro pin input bm
    simp only [dispatch]
    rw [List.filter_append]
    by_cases hp : pin = p
    · subst hp
      have hrest : (if pin + 1 ≤ pin ∧ pin < pin + 1 + fuel ∧
          Nat.testBit (bm >>> 1) (pin - (pin + 1)) = true ∧
          entityReactive (ents.getD pin none) = true then
            [(pin, Nat.testBit (input >>> 1) (pin - (pin + 1)))] else []) = [] := by
        rw [if_neg]
        rintro ⟨h1, -⟩
        omega
      rw [ih (pin + 1) (input >>> 1) (bm >>> 1), hrest, List.append_nil]
      by_cases hcond : bm &&& 1 ≠ 0 ∧ entityReactive (ents.getD pin none) = true
      · rw [if_pos hcond,
          if_pos ⟨Nat.le_refl _, by omega,
            by simpa [Nat.sub_self] using (and_one_ne_zero_iff bm).mp hcond.1, hcond.2⟩]
        simp [List.filter, decide_and_one]
      · rw [if_neg hcond, if_neg ?hrhs]
        · simp
        · rintro ⟨-, -, hbit, hreact⟩
          exact hcond ⟨(and_one_ne_zero_iff bm).mpr (by simpa [Nat.sub_self] using hbit),
            hreact⟩
    · have hnote : ((if bm &&& 1 ≠ 0 ∧ entityReactive (ents.getD pin none) = true then
          [(pin, decide (input &&& 1 ≠ 0))] else []).filter
            fun note => note.1 = p) = [] := by
        split_ifs <;> simp [hp]
      rw [hnote, List.nil_append, ih (pin + 1) (input >>> 1) (bm >>> 1)]
      by_cases hle : pin + 1 ≤ p
      · rw [Nat.testBit_shiftRight, Nat.testBit_shiftRight,
          show 1 + (p - (pin + 1)) = p - pin from by omega]
        refine if_congr ?_ rfl rfl
        constructor
        · rintro ⟨h1, h2, h3⟩
          exact ⟨by omega, by omega, h3⟩
        · rintro ⟨h1, h2, h3⟩
          exact ⟨by omega, by omega, h3⟩
      · rw [if_neg (by rintro ⟨h1, -⟩; omega), if_neg (by rintro ⟨h1, h2, -⟩; omega)]

/-- `register_entity` marks the entity's pin pending in the update
bitmap. -/
theorem register_entity_bitmap (e : Entity) (s : MCP23017) (h : e.pin < 16) :
    Nat.testBit (register_entity e s).update_bitmap e.pin = true := by
  simp [register_entity, Nat.testBit_lor, Nat.testBit_land, Nat.one_shiftLeft,
    Nat.testBit_two_pow, testBit_mask16, h]

/-- Claim C3: after `register_entity` binds a reactive observer at pin
`p`, that pin's bit is set in the update bitmap, and the next completed
poll cycle delivers exactly one `push_update` notification for pin `p`,
carrying bit `p` of the new cached GPIO value, regardless of whether the
underlying level changed. -/
theorem register_forces_notification (bus : BusModel) (s : MCP23017) (e : Entity)
    (hlen : s.entities.length = 16) (hpin : e.pin < 16)
    (hreact : e.hasPushUpdate = true) :
    Nat.testBit (register_entity e s).update_bitmap e.pin = true ∧
    ((pollCycle bus (register_entity e s)).2.notifications.filter
        fun note => note.1 = e.pin) =
      [(e.pin,
        Nat.testBit ((pollCycle bus (register_entity e s)).1.cache.gpio) e.pin)] := by
  refine ⟨register_entity_bitmap e s hpin, ?_⟩
  rw [pollCycle_notifications, pollCycle_gpio,
    dispatch_filter ((register_entity e s).entities) e.pin 16 0
      (pollInput bus (register_entity e s)) _]
  rw [if_pos ?hcond]
  case hcond =>
    refine ⟨Nat.zero_le _, by omega, ?_, ?_⟩
    · rw [Nat.sub_zero, Nat.testBit_lor, register_entity_bitmap e s hpin]
      rfl
    · have hslot : (register_entity e s).entities.getD e.pin none = some e := by
        have hlt : e.pin < s.entities.length := by omega
        simp [register_entity, List.getD_eq_getElem?_getD,
          List.getElem?_set_self hlt]
      rw [hslot]
      exact hreact
  rw [Nat.sub_zero]

/-- Witness for C3: binding a reactive observer at pin 3 of a fresh
device and polling once (reads return 0x5A) delivers exactly one
notification for pin 3 with the new level. -/
theorem register_forces_notification_witness :
    Nat.testBit (register_entity ⟨3, true⟩ emptyDev).update_bitmap 3 = true ∧
    ((pollCycle busFiveA (register_entity ⟨3, true⟩ emptyDev)).2.notifications.filter
        fun note => note.1 = 3) =
      [(3,
        Nat.testBit
          ((pollCycle busFiveA (register_entity ⟨3, true⟩ emptyDev)).1.cache.gpio) 3)] :=
  register_forces_notification busFiveA emptyDev ⟨3, true⟩ (by decide) (by decide) rfl
